import Mathlib

/-!
Verification of the analytics transformation layer of the pure-analytics
repository: classification of buy/sell events, table sorting and filtering
(TransactionList, ProductShow, ProductStatsComponent) and the daily
time-bucketed demand series (BuySellDemandChart).

The TypeScript components are shallowly embedded: record types become
structures over `ℚ` (JavaScript numbers) and `String`, nullable fields
become `Option`, `Array.prototype.sort` with a comparator derived from a
total preorder is modelled by the stable `List.insertionSort` (JavaScript
sorts are stable and agree with any stable sort for consistent
comparators), and a JavaScript `Map` in insertion order is modelled by an
association list to which new keys are appended.
-/

namespace PureAnalytics



/-! ## Sorting machinery shared by all three table components

Each component sorts with a comparator of the shape

    if (aValue < bValue) return sortDirection === 'asc' ? -1 : 1;
    if (aValue > bValue) return sortDirection === 'asc' ? 1 : -1;
    return 0;

where `aValue`/`bValue` are the column-specific extracted keys.
-/

inductive SortDirection where
  | asc
  | desc
deriving DecidableEq

/-- The generic three-way compare on extracted values used by every
component, honoring the sort direction. -/
def jsCompare {κ : Type} [LinearOrder κ] (dir : SortDirection) (a b : κ) : Int :=
  if a < b then (match dir with | .asc => -1 | .desc => 1)
  else if b < a then (match dir with | .asc => 1 | .desc => -1)
  else 0

/-- `[...l].sort((a, b) => cmp(key a, key b))` for the comparator above:
a stable sort placing `x` before `y` whenever the comparator does not
order `y` strictly first. -/
def sortByKey {α κ : Type} [LinearOrder κ] (k : α → κ) (dir : SortDirection)
    (l : List α) : List α :=
  List.insertionSort (fun x y => jsCompare dir (k x) (k y) ≤ 0) l

/-! ## Data model (src/web/src/types.ts, version accompanying the components)

JavaScript `number` fields are embedded as `ℚ`; nullable fields as
`Option`.
-/

/-- A row of the transaction list (`Transaction` in types.ts). -/
structure Transaction where
  pure_product_id : String
  name : String
  sku : String
  material : String
  variant_label : String
  event_time : String
  quantity : ℚ
  price : ℚ
  spot_premium_percentage : ℚ
  spot_premium_dollar : ℚ
  event_type : Option String
deriving DecidableEq

/-- A transaction row of the product-detail view (`ProductTransaction`
in types.ts), also the input row type of `BuySellDemandChart`. -/
structure ProductTransaction where
  sku : String
  variant_label : String
  event_time : String
  quantity : ℚ
  price : ℚ
  spot_premium_percentage : ℚ
  spot_premium_dollar : ℚ
  event_type : Option String
deriving DecidableEq

/-- A per-product aggregate row (`ProductStats` in types.ts). -/
structure ProductStats where
  pure_product_id : String
  material : String
  name : String
  sku : String
  transaction_count : ℚ
  buy_count : ℚ
  sell_count : ℚ
  buy_sell_ratio : Option ℚ
  total_volume : Option ℚ
  total_buy_quantity : Option ℚ
  total_sell_quantity : Option ℚ
  total_buy_amount : Option ℚ
  total_sell_amount : Option ℚ
deriving DecidableEq

/-- `s.toLowerCase()` of a JavaScript string, viewed as its sequence of
characters (JavaScript compares strings lexicographically by code unit,
which is exactly the lexicographic order on the character list). -/
def jsToLower (s : String) : List Char :=
  s.toList.map Char.toLower

/-- JavaScript `v || dflt` for a `string | null` value: `null` and the
empty string are falsy, any other string is truthy. -/
def jsOrStr (v : Option String) (dflt : String) : String :=
  match v with
  | none => dflt
  | some s => if s = "" then dflt else s

/-! ## TransactionList sorting (sortedTransactions comparator)

Columns and key extraction exactly as in the `switch (sortColumn)` of the
component.  `new Date(x).getTime()` delegates date parsing to the
JavaScript engine; it is embedded as an arbitrary parse function
`parseDate : String → ℚ` supplied as a parameter (the spec puts
unparseable dates outside the input contract).
-/

inductive TLColumn where
  | event_time
  | material
  | name
  | quantity
  | price
  | total
  | spot_premium_percentage
  | spot_premium_dollar
  | event_type
deriving DecidableEq

/-- `[...transactions].sort((a, b) => ...)` of TransactionList. -/
def tlSorted (parseDate : String → ℚ) (col : TLColumn) (dir : SortDirection)
    (txs : List Transaction) : List Transaction :=
  match col with
  | .event_time => sortByKey (fun t => parseDate t.event_time) dir txs
  | .material => sortByKey (fun t => jsToLower t.material) dir txs
  | .name => sortByKey (fun t => jsToLower t.name) dir txs
  | .quantity => sortByKey (fun t => t.quantity) dir txs
  | .price => sortByKey (fun t => t.price) dir txs
  | .total => sortByKey (fun t => t.quantity * t.price) dir txs
  | .spot_premium_percentage => sortByKey (fun t => t.spot_premium_percentage) dir txs
  | .spot_premium_dollar => sortByKey (fun t => t.spot_premium_dollar) dir txs
  | .event_type => sortByKey (fun t => (jsOrStr t.event_type "zzz").toList) dir txs

/-- "The extracted sort keys of `txs` for column `col` are pairwise
distinct" (the no-ties hypothesis), column by column. -/
abbrev tlKeysDistinct (parseDate : String → ℚ) (col : TLColumn)
    (txs : List Transaction) : Prop :=
  match col with
  | .event_time => (txs.map (fun t => parseDate t.event_time)).Nodup
  | .material => (txs.map (fun t => jsToLower t.material)).Nodup
  | .name => (txs.map (fun t => jsToLower t.name)).Nodup
  | .quantity => (txs.map (fun t => t.quantity)).Nodup
  | .price => (txs.map (fun t => t.price)).Nodup
  | .total => (txs.map (fun t => t.quantity * t.price)).Nodup
  | .spot_premium_percentage => (txs.map (fun t => t.spot_premium_percentage)).Nodup
  | .spot_premium_dollar => (txs.map (fun t => t.spot_premium_dollar)).Nodup
  | .event_type => (txs.map (fun t => (jsOrStr t.event_type "zzz").toList)).Nodup

/-! ## ProductShow sorting (sortedTransactions comparator) -/

inductive PSColumn where
  | event_time
  | quantity
  | price
  | total
  | spot_premium_percentage
  | spot_premium_dollar
  | event_type
deriving DecidableEq

/-- `[...data.transactions].sort((a, b) => ...)` of ProductShow. -/
def psSorted (parseDate : String → ℚ) (col : PSColumn) (dir : SortDirection)
    (txs : List ProductTransaction) : List ProductTransaction :=
  match col with
  | .event_time => sortByKey (fun t => parseDate t.event_time) dir txs
  | .quantity => sortByKey (fun t => t.quantity) dir txs
  | .price => sortByKey (fun t => t.price) dir txs
  | .total => sortByKey (fun t => t.quantity * t.price) dir txs
  | .spot_premium_percentage => sortByKey (fun t => t.spot_premium_percentage) dir txs
  | .spot_premium_dollar => sortByKey (fun t => t.spot_premium_dollar) dir txs
  | .event_type => sortByKey (fun t => (jsOrStr t.event_type "zzz").toList) dir txs

/-- No-ties hypothesis for the ProductShow columns. -/
abbrev psKeysDistinct (parseDate : String → ℚ) (col : PSColumn)
    (txs : List ProductTransaction) : Prop :=
  match col with
  | .event_time => (txs.map (fun t => parseDate t.event_time)).Nodup
  | .quantity => (txs.map (fun t => t.quantity)).Nodup
  | .price => (txs.map (fun t => t.price)).Nodup
  | .total => (txs.map (fun t => t.quantity * t.price)).Nodup
  | .spot_premium_percentage => (txs.map (fun t => t.spot_premium_percentage)).Nodup
  | .spot_premium_dollar => (txs.map (fun t => t.spot_premium_dollar)).Nodup
  | .event_type => (txs.map (fun t => (jsOrStr t.event_type "zzz").toList)).Nodup

/-! ## ProductStatsComponent filtering and sorting -/

inductive StatsColumn where
  | material
  | name
  | transaction_count
  | buy_count
  | sell_count
  | buy_sell_ratio
  | total_volume
  | total_buy_quantity
  | total_sell_quantity
  | total_buy_amount
  | total_sell_amount
deriving DecidableEq

/-- JavaScript `s.includes(sub)` on character sequences: substring
containment. -/
def jsIncludes (hay sub : List Char) : Bool :=
  decide (sub <:+: hay)

/-- `products.filter(...)` of ProductStatsComponent: case-insensitive
substring match of the search query against the name, AND (material set
empty OR exact membership of the material).  The `Set<string>` of
selected materials is embedded as a list with exact-equality membership. -/
def filteredProducts (searchQuery : String) (selectedMaterials : List String)
    (products : List ProductStats) : List ProductStats :=
  products.filter (fun product =>
    jsIncludes (jsToLower product.name) (jsToLower searchQuery) &&
      (selectedMaterials.isEmpty || selectedMaterials.contains product.material))

/-- `[...filteredProducts].sort((a, b) => ...)` of ProductStatsComponent.
Null ratios are replaced by the sentinel `-1` (`?? -1`, "Sort nulls
last"); null amounts/quantities/volumes by `0` (`?? 0`). -/
def sortedProducts (col : StatsColumn) (dir : SortDirection)
    (l : List ProductStats) : List ProductStats :=
  match col with
  | .material => sortByKey (fun p => jsToLower p.material) dir l
  | .name => sortByKey (fun p => jsToLower p.name) dir l
  | .transaction_count => sortByKey (fun p => p.transaction_count) dir l
  | .buy_count => sortByKey (fun p => p.buy_count) dir l
  | .sell_count => sortByKey (fun p => p.sell_count) dir l
  | .buy_sell_ratio => sortByKey (fun p => p.buy_sell_ratio.getD (-1)) dir l
  | .total_volume => sortByKey (fun p => p.total_volume.getD 0) dir l
  | .total_buy_quantity => sortByKey (fun p => p.total_buy_quantity.getD 0) dir l
  | .total_sell_quantity => sortByKey (fun p => p.total_sell_quantity.getD 0) dir l
  | .total_buy_amount => sortByKey (fun p => p.total_buy_amount.getD 0) dir l
  | .total_sell_amount => sortByKey (fun p => p.total_sell_amount.getD 0) dir l

/-! ## Classification

The chart accumulates a transaction as a buy when
`tx.event_type === "buy" || tx.variant_label === "Pure Priority"`, as a
sell when it is not a buy and `tx.event_type === "sell"`, and otherwise
ignores its amount. -/

inductive Classification where
  | buy
  | sell
  | unknown
deriving DecidableEq

/-- The branch structure of the `dailyData` accumulation in
BuySellDemandChart (src/unnamed/part_000, lines 49-54). -/
def chartClassify (tx : ProductTransaction) : Classification :=
  if tx.event_type = some "buy" ∨ tx.variant_label = "Pure Priority" then .buy
  else if tx.event_type = some "sell" then .sell
  else .unknown

inductive BadgeStyle where
  | buyStyle
  | sellStyle
  | grayStyle
deriving DecidableEq

/-- JavaScript truthiness of a `string | null` value. -/
def jsTruthy (v : Option String) : Bool :=
  match v with
  | none => false
  | some s => decide (s ≠ "")

/-- The Type badge of a TransactionList row (the `.sql`-embedded
component, lines 298-307): rendered only when
`tx.event_type || tx.variant_label === 'Pure Priority'` is truthy; its
style is the buy style when
`tx.event_type === 'buy' || tx.variant_label === 'Pure Priority'`, else
the sell style when `tx.event_type === 'sell'`, else gray; its label is
`'BUY'` for Pure Priority variants and the upper-cased event type
otherwise. -/
def typeBadge (tx : Transaction) : Option (BadgeStyle × String) :=
  if jsTruthy tx.event_type ∨ tx.variant_label = "Pure Priority" then
    some
      ((if tx.event_type = some "buy" ∨ tx.variant_label = "Pure Priority" then
          BadgeStyle.buyStyle
        else if tx.event_type = some "sell" then BadgeStyle.sellStyle
        else BadgeStyle.grayStyle),
        (if tx.variant_label = "Pure Priority" then "BUY"
         else (tx.event_type.getD "").toUpper))
  else none

/-! ## Daily time bucketing (BuySellDemandChart.dailyData)

The JavaScript `Map` is embedded as an association list in insertion
order (`Map.set` on a fresh key appends; updates are in place).  The
concluding `.sort((a, b) => a.date.localeCompare(b.date))` is an
ascending sort on the `YYYY-MM-DD` date strings (standard collation on
these ASCII strings coincides with code-point order). -/

/-- `tx.event_time.split("T")[0]`: the prefix of the timestamp before the
first `'T'`. -/
def dateOf (tx : ProductTransaction) : String :=
  String.mk (tx.event_time.toList.takeWhile (fun c => c ≠ 'T'))

/-- `(tx.price * tx.quantity) / 100`: the gross amount in display
dollars. -/
def amountOf (tx : ProductTransaction) : ℚ :=
  tx.price * tx.quantity / 100

structure DayAcc where
  buyAmount : ℚ
  sellAmount : ℚ
deriving DecidableEq

/-- `dataMap.has(date)`. -/
def hasDate (m : List (String × DayAcc)) (d : String) : Bool :=
  (m.map Prod.fst).contains d

/-- `if (!dataMap.has(date)) dataMap.set(date, {buyAmount: 0, sellAmount: 0})`. -/
def ensureDate (m : List (String × DayAcc)) (d : String) : List (String × DayAcc) :=
  if hasDate m d then m else m ++ [(d, ⟨0, 0⟩)]

/-- `dayData.buyAmount += amount` on the entry for date `d`. -/
def addBuy (m : List (String × DayAcc)) (d : String) (q : ℚ) : List (String × DayAcc) :=
  m.map (fun p => if p.1 = d then (p.1, ⟨p.2.buyAmount + q, p.2.sellAmount⟩) else p)

/-- `dayData.sellAmount += amount` on the entry for date `d`. -/
def addSell (m : List (String × DayAcc)) (d : String) (q : ℚ) : List (String × DayAcc) :=
  m.map (fun p => if p.1 = d then (p.1, ⟨p.2.buyAmount, p.2.sellAmount + q⟩) else p)

/-- The body of `transactions.forEach((tx) => ...)`: ensure the date
bucket exists, then add the amount to the buy or sell accumulator
according to the classification (unknown transactions add to neither). -/
def chartStep (m : List (String × DayAcc)) (tx : ProductTransaction) :
    List (String × DayAcc) :=
  let d := dateOf tx
  let m1 := ensureDate m d
  match chartClassify tx with
  | .buy => addBuy m1 d (amountOf tx)
  | .sell => addSell m1 d (amountOf tx)
  | .unknown => m1

/-- `Math.round(x * 100) / 100` (round to 2 decimals; `Math.round` is
round-half-up, exactly Mathlib's `round`). -/
def round2 (x : ℚ) : ℚ :=
  ((round (x * 100) : ℤ) : ℚ) / 100

structure DailyData where
  date : String
  buyAmount : ℚ
  sellAmount : ℚ
deriving DecidableEq

/-- The full `dailyData` computation of BuySellDemandChart:
fold the transactions through the map, round each bucket once, and sort
the buckets by date ascending. -/
def dailyData (txs : List ProductTransaction) : List DailyData :=
  List.insertionSort (fun a b => a.date ≤ b.date)
    ((txs.foldl chartStep []).map
      (fun p => ⟨p.1, round2 p.2.buyAmount, round2 p.2.sellAmount⟩))

/-- Sum of the dollar amounts of the buy-classified transactions of
calendar date `d` (specification-side helper used to state what the fold
accumulates). -/
def buySum (txs : List ProductTransaction) (d : String) : ℚ :=
  ((txs.filter (fun tx => decide (dateOf tx = d ∧ chartClassify tx = .buy))).map
    amountOf).sum

/-- Sum of the dollar amounts of the sell-classified transactions of
calendar date `d`. -/
def sellSum (txs : List ProductTransaction) (d : String) : ℚ :=
  ((txs.filter (fun tx => decide (dateOf tx = d ∧ chartClassify tx = .sell))).map
    amountOf).sum

/-- Stats rows with buy/sell ratios 2, null and 1/2 (all other fields
arbitrary), the input of the C1 evaluation. -/
def ratioP1 : ProductStats :=
  ⟨"1", "Gold", "Eagle", "SKU1", 3, 2, 1, some 2, some 100, some 1, some 1,
    some 50, some 50⟩

def ratioP2 : ProductStats :=
  ⟨"2", "Silver", "Maple", "SKU2", 1, 1, 0, none, some 10, some 1, none,
    some 10, none⟩

def ratioP3 : ProductStats :=
  ⟨"3", "Gold", "Bar", "SKU3", 3, 1, 2, some (mkRat 1 2), some 30, some 1,
    some 2, some 10, some 20⟩

/-- The filter predicate as the specification words it: the product name
contains the query case-insensitively, and the material set is empty or
contains the product's material by exact string equality. -/
def specFilterKeeps (searchQuery : String) (selectedMaterials : List String)
    (p : ProductStats) : Prop :=
  jsToLower searchQuery <:+: jsToLower p.name
    ∧ (selectedMaterials = [] ∨ p.material ∈ selectedMaterials)

instance (q : String) (sel : List String) (p : ProductStats) :
    Decidable (specFilterKeeps q sel p) := by
  unfold specFilterKeeps
  infer_instance

/-- Two transactions with distinct prices, input of the C6 witness. -/
def sixA : Transaction :=
  ⟨"1", "Eagle", "S1", "Gold", "Standard", "2024-01-01T00:00:00Z", 1, 5, 0, 0,
    some "buy"⟩

def sixB : Transaction :=
  ⟨"2", "Maple", "S2", "Gold", "Standard", "2024-01-02T00:00:00Z", 1, 7, 0, 0,
    some "sell"⟩

/-! ## The copy-then-sort frame property (C9)

`Array.prototype.sort` mutates its receiver, so all three components sort
a spread copy: `[...transactions].sort(...)`.  To state that the input
array is not mutated we model a minimal heap of JavaScript arrays:
references are indices, allocation appends, and in-place sort overwrites
the referenced cell. -/

structure ArrayHeap (α : Type) where
  arrays : List (List α)

/-- Dereference `r` in the heap. -/
def ArrayHeap.get {α : Type} (h : ArrayHeap α) (r : Nat) : List α :=
  h.arrays.getD r []

/-- The heap program `[...a].sort(cmp)` where `a` is the array at `r`:
allocate a fresh array holding a copy of the contents (the spread), sort
the fresh array in place (mutating only it), and return the new heap and
the reference to the fresh, sorted array. -/
def spreadSort {α : Type} (sortFn : List α → List α) (h : ArrayHeap α)
    (r : Nat) : ArrayHeap α × Nat :=
  let copy := h.get r
  let h1 : ArrayHeap α := ⟨h.arrays ++ [copy]⟩
  let r1 := h.arrays.length
  let h2 : ArrayHeap α := ⟨h1.arrays.set r1 (sortFn (h1.get r1))⟩
  (h2, r1)

/-- A transaction for the C9 witness heap. -/
def frameTx : Transaction :=
  ⟨"1", "Eagle", "S1", "Gold", "Standard", "2024-01-03T00:00:00Z", 2, 11, 0, 0,
    some "buy"⟩

def roundTx1 : ProductTransaction :=
  ⟨"S", "Standard", "2024-01-01T10:00:00Z", mkRat 1 2, 2001, 0, 0, some "buy"⟩

def roundTx2 : ProductTransaction :=
  ⟨"S", "Standard", "2024-01-01T12:00:00Z", mkRat 1 2, 2001, 0, 0, some "buy"⟩

def unknownTx : ProductTransaction :=
  ⟨"S", "Standard", "2024-01-02T10:00:00Z", 1, 100, 0, 0, none⟩

theorem jsCompare_asc_nonpos {κ : Type} [LinearOrder κ] (a b : κ) :
    jsCompare SortDirection.asc a b ≤ 0 ↔ a ≤ b := by
  unfold jsCompare
  rcases lt_trichotomy a b with h | h | h
  · simp [h, le_of_lt h]
  · simp [h, lt_irrefl]
  · have h1 : ¬a < b := not_lt_of_gt h
    have h2 : ¬a ≤ b := not_le_of_gt h
    simp [h1, h, h2]

theorem jsCompare_desc_nonpos {κ : Type} [LinearOrder κ] (a b : κ) :
    jsCompare SortDirection.desc a b ≤ 0 ↔ b ≤ a := by
  unfold jsCompare
  rcases lt_trichotomy a b with h | h | h
  · have h1 : ¬b ≤ a := not_le_of_gt h
    simp [h, not_lt_of_gt h, h1]
  · simp [h, lt_irrefl]
  · simp [h, not_lt_of_gt h, le_of_lt h]

theorem jsCompareRel_total {α κ : Type} [LinearOrder κ] (k : α → κ)
    (dir : SortDirection) (a b : α) :
    jsCompare dir (k a) (k b) ≤ 0 ∨ jsCompare dir (k b) (k a) ≤ 0 := by
  cases dir
  · rw [jsCompare_asc_nonpos, jsCompare_asc_nonpos]
    exact le_total _ _
  · rw [jsCompare_desc_nonpos, jsCompare_desc_nonpos]
    exact le_total _ _

theorem jsCompareRel_trans {α κ : Type} [LinearOrder κ] (k : α → κ)
    (dir : SortDirection) (a b c : α)
    (hab : jsCompare dir (k a) (k b) ≤ 0) (hbc : jsCompare dir (k b) (k c) ≤ 0) :
    jsCompare dir (k a) (k c) ≤ 0 := by
  cases dir
  · rw [jsCompare_asc_nonpos] at hab hbc ⊢
    exact le_trans hab hbc
  · rw [jsCompare_desc_nonpos] at hab hbc ⊢
    exact le_trans hbc hab

theorem sortByKey_sorted {α κ : Type} [LinearOrder κ] (k : α → κ)
    (dir : SortDirection) (l : List α) :
    List.Sorted (fun x y => jsCompare dir (k x) (k y) ≤ 0) (sortByKey k dir l) := by
  haveI : IsTotal α (fun x y => jsCompare dir (k x) (k y) ≤ 0) :=
    ⟨jsCompareRel_total k dir⟩
  haveI : IsTrans α (fun x y => jsCompare dir (k x) (k y) ≤ 0) :=
    ⟨jsCompareRel_trans k dir⟩
  exact List.sorted_insertionSort _ _

theorem sortByKey_perm {α κ : Type} [LinearOrder κ] (k : α → κ)
    (dir : SortDirection) (l : List α) : List.Perm (sortByKey k dir l) l :=
  List.perm_insertionSort _ _

/-- Key reversal lemma: when the extracted keys of the input are pairwise
distinct, sorting descending produces exactly the reverse of sorting
ascending. -/
theorem sortByKey_desc_eq_reverse {α κ : Type} [LinearOrder κ] (k : α → κ)
    (l : List α) (h : (l.map k).Nodup) :
    sortByKey k SortDirection.desc l = (sortByKey k SortDirection.asc l).reverse := by
  haveI : IsAntisymm α (fun x y => k y < k x ∨ x = y) := by
    constructor
    intro a b hab hba
    rcases hab with h1 | h1
    · rcases hba with h2 | h2
      · exact absurd h1 (lt_asymm h2)
      · exact h2.symm
    · exact h1
  have hDp : List.Perm (sortByKey k SortDirection.desc l) l := sortByKey_perm k _ l
  have hAp : List.Perm (sortByKey k SortDirection.asc l) l := sortByKey_perm k _ l
  have hDk : ((sortByKey k SortDirection.desc l).map k).Nodup :=
    (hDp.map k).nodup_iff.mpr h
  have hAk : ((sortByKey k SortDirection.asc l).map k).Nodup :=
    (hAp.map k).nodup_iff.mpr h
  have hDne : (sortByKey k SortDirection.desc l).Pairwise (fun x y => k x ≠ k y) :=
    List.pairwise_map.mp hDk
  have hAne : (sortByKey k SortDirection.asc l).Pairwise (fun x y => k x ≠ k y) :=
    List.pairwise_map.mp hAk
  have hDle : (sortByKey k SortDirection.desc l).Pairwise (fun x y => k y ≤ k x) :=
    (sortByKey_sorted k _ l).imp (fun hxy => (jsCompare_desc_nonpos _ _).mp hxy)
  have hAle : (sortByKey k SortDirection.asc l).Pairwise (fun x y => k x ≤ k y) :=
    (sortByKey_sorted k _ l).imp (fun hxy => (jsCompare_asc_nonpos _ _).mp hxy)
  have hDstrict : (sortByKey k SortDirection.desc l).Pairwise (fun x y => k y < k x) :=
    (hDle.and hDne).imp (fun hxy => lt_of_le_of_ne hxy.1 (Ne.symm hxy.2))
  have hAstrict : (sortByKey k SortDirection.asc l).Pairwise (fun x y => k x < k y) :=
    (hAle.and hAne).imp (fun hxy => lt_of_le_of_ne hxy.1 hxy.2)
  have hRevStrict :
      ((sortByKey k SortDirection.asc l).reverse).Pairwise (fun x y => k y < k x) :=
    List.pairwise_reverse.mpr hAstrict
  have hperm : List.Perm (sortByKey k SortDirection.desc l) ((sortByKey k SortDirection.asc l).reverse) :=
    hDp.trans (hAp.symm.trans (List.reverse_perm _).symm)
  have hDS : List.Sorted (fun x y => k y < k x ∨ x = y)
      (sortByKey k SortDirection.desc l) :=
    hDstrict.imp (fun hxy => Or.inl hxy)
  have hRS : List.Sorted (fun x y => k y < k x ∨ x = y)
      ((sortByKey k SortDirection.asc l).reverse) :=
    hRevStrict.imp (fun hxy => Or.inl hxy)
  exact List.eq_of_perm_of_sorted hperm hDS hRS

/-! ## Claims -/

/-- C2: whenever `variant_label` is `"Pure Priority"` the transaction is
classified buy — in the chart accumulation and in the transaction-list
type badge alike — regardless of the stored `event_type`. -/
theorem C2_purePriority_forces_buy :
    (∀ tx : ProductTransaction, tx.variant_label = "Pure Priority" →
        chartClassify tx = Classification.buy)
    ∧ (∀ tx : Transaction, tx.variant_label = "Pure Priority" →
        typeBadge tx = some (BadgeStyle.buyStyle, "BUY")) := by
  constructor
  · intro tx h
    simp [chartClassify, h]
  · intro tx h
    simp [typeBadge, h]

/-- C2 witness: the claim's example `{event_type: "sell", variant_label:
"Pure Priority"}` is classified buy in both places. -/
theorem C2_purePriority_forces_buy_witness :
    chartClassify ⟨"S", "Pure Priority", "2024-01-01T00:00:00Z", 1, 100, 0, 0,
        some "sell"⟩ = Classification.buy
      ∧ typeBadge ⟨"1", "Eagle", "S", "Gold", "Pure Priority",
          "2024-01-01T00:00:00Z", 1, 100, 0, 0, some "sell"⟩
        = some (BadgeStyle.buyStyle, "BUY") :=
  ⟨C2_purePriority_forces_buy.1 _ rfl, C2_purePriority_forces_buy.2 _ rfl⟩

/-- C1: evaluating the ProductStatsComponent comparator on the
`buy_sell_ratio` column at ratios `[2, null, 1/2]`: in ascending
direction the null-ratio row comes FIRST (the `?? -1` sentinel is below
every real ratio), not last as the claim and the code's own
"Sort nulls last" comment state; in descending direction it comes last as
claimed.  This exhibits the code bug behind claim C1. -/
theorem C1_ratio_null_sentinel_eval :
    ((sortedProducts StatsColumn.buy_sell_ratio SortDirection.asc
          [ratioP1, ratioP2, ratioP3]).map (fun p => p.buy_sell_ratio))
        = [none, some (mkRat 1 2), some 2]
      ∧ ((sortedProducts StatsColumn.buy_sell_ratio SortDirection.desc
            [ratioP1, ratioP2, ratioP3]).map (fun p => p.buy_sell_ratio))
        = [some 2, some (mkRat 1 2), none] := by
  constructor
  · decide
  · decide

/-- C8: filtering then sorting (and the daily bucketing) are pure
functions of their inputs: running them twice on the same input yields
identical output sequences. -/
theorem C8_filter_sort_deterministic :
    ∀ (q : String) (sel : List String) (col : StatsColumn)
      (dir : SortDirection) (l : List ProductStats)
      (txs : List ProductTransaction),
      sortedProducts col dir (filteredProducts q sel l)
          = sortedProducts col dir (filteredProducts q sel l)
        ∧ dailyData txs = dailyData txs :=
  fun _ _ _ _ _ _ => ⟨rfl, rfl⟩

/-- C4: the ProductStatsComponent filter keeps exactly the products whose
name contains the query case-insensitively AND whose material passes the
material-set predicate (empty set matches everything; otherwise exact
membership); an empty material set imposes no constraint at all; with no
active filters the input is returned unchanged; `{"Gold"}` keeps exactly
the products whose material is exactly `"Gold"`. -/
theorem C4_filter_characterization :
    (∀ (q : String) (sel : List String) (l : List ProductStats),
        filteredProducts q sel l
          = l.filter (fun p => decide (specFilterKeeps q sel p)))
    ∧ (∀ (q : String) (l : List ProductStats),
        filteredProducts q [] l
          = l.filter (fun p => jsIncludes (jsToLower p.name) (jsToLower q)))
    ∧ (∀ l : List ProductStats, filteredProducts "" [] l = l)
    ∧ (∀ l : List ProductStats,
        filteredProducts "" ["Gold"] l
          = l.filter (fun p => p.material == "Gold")) := by
  have h0 : jsToLower "" = [] := rfl
  refine ⟨?_, ?_, ?_, ?_⟩
  · intro q sel l
    unfold filteredProducts
    apply List.filter_congr
    intro p _
    have he : sel.isEmpty = decide (sel = []) := by cases sel <;> simp
    have hc : sel.contains p.material = decide (p.material ∈ sel) := by
      show List.elem p.material sel = decide (p.material ∈ sel)
      simp
    simp only [jsIncludes, specFilterKeeps, Bool.decide_and, Bool.decide_or, he, hc]
  · intro q l
    unfold filteredProducts
    apply List.filter_congr
    intro p _
    simp
  · intro l
    unfold filteredProducts
    apply List.filter_eq_self.mpr
    intro p hp
    simp [jsIncludes, h0, List.nil_infix]
  · intro l
    unfold filteredProducts
    apply List.filter_congr
    intro p _
    simp [jsIncludes, h0, List.nil_infix, List.contains, List.elem]
    cases h : (p.material == "Gold") <;> rfl

/-- C6: for every sortable column of TransactionList and of ProductShow,
when the extracted sort keys of the input are pairwise distinct, sorting
descending yields exactly the reverse of sorting ascending. -/
theorem C6_desc_eq_reverse_asc :
    (∀ (parseDate : String → ℚ) (col : TLColumn) (txs : List Transaction),
        tlKeysDistinct parseDate col txs →
          tlSorted parseDate col SortDirection.desc txs
            = (tlSorted parseDate col SortDirection.asc txs).reverse)
    ∧ (∀ (parseDate : String → ℚ) (col : PSColumn)
        (txs : List ProductTransaction),
        psKeysDistinct parseDate col txs →
          psSorted parseDate col SortDirection.desc txs
            = (psSorted parseDate col SortDirection.asc txs).reverse) := by
  constructor
  · intro pd col txs h
    cases col <;> exact sortByKey_desc_eq_reverse _ _ h
  · intro pd col txs h
    cases col <;> exact sortByKey_desc_eq_reverse _ _ h

/-- C6 witness: concrete no-ties input on the price column. -/
theorem C6_desc_eq_reverse_asc_witness :
    tlKeysDistinct (fun _ => 0) TLColumn.price [sixA, sixB]
      ∧ tlSorted (fun _ => 0) TLColumn.price SortDirection.desc [sixA, sixB]
        = (tlSorted (fun _ => 0) TLColumn.price SortDirection.asc
            [sixA, sixB]).reverse :=
  ⟨by decide, C6_desc_eq_reverse_asc.1 (fun _ => 0) TLColumn.price [sixA, sixB]
    (by decide)⟩

/-- C7: sorting by the event-type column in ascending direction, every
transaction with a real event type (`"buy"` or `"sell"`) precedes every
transaction with a missing event type (compared as the sentinel
`"zzz"`) — equivalently, no missing-type row ever appears before a
real-type row.  Holds in TransactionList and in ProductShow. -/
theorem C7_eventType_missing_after_real :
    (∀ (parseDate : String → ℚ) (txs : List Transaction),
        (tlSorted parseDate TLColumn.event_type SortDirection.asc txs).Pairwise
          (fun a b => ¬(a.event_type = none
            ∧ (b.event_type = some "buy" ∨ b.event_type = some "sell"))))
    ∧ (∀ (parseDate : String → ℚ) (txs : List ProductTransaction),
        (psSorted parseDate PSColumn.event_type SortDirection.asc txs).Pairwise
          (fun a b => ¬(a.event_type = none
            ∧ (b.event_type = some "buy" ∨ b.event_type = some "sell")))) := by
  constructor
  · intro pd txs
    have h := sortByKey_sorted
      (fun t : Transaction => (jsOrStr t.event_type "zzz").toList)
      SortDirection.asc txs
    refine List.Pairwise.imp ?_ h
    intro a b hab
    rw [jsCompare_asc_nonpos] at hab
    rintro ⟨ha, hb⟩
    rw [ha] at hab
    rcases hb with hb | hb <;> rw [hb] at hab <;> exact absurd hab (by decide)
  · intro pd txs
    have h := sortByKey_sorted
      (fun t : ProductTransaction => (jsOrStr t.event_type "zzz").toList)
      SortDirection.asc txs
    refine List.Pairwise.imp ?_ h
    intro a b hab
    rw [jsCompare_asc_nonpos] at hab
    rintro ⟨ha, hb⟩
    rw [ha] at hab
    rcases hb with hb | hb <;> rw [hb] at hab <;> exact absurd hab (by decide)

/-- C10: an empty-string event type is treated exactly like a missing
one: the falsy-or sentinel substitution maps both to `"zzz"`, so in
ascending order an empty-string-type row never appears before a row
typed `"buy"` or `"sell"`.  Holds in TransactionList and ProductShow. -/
theorem C10_empty_eventType_like_missing :
    jsOrStr (some "") "zzz" = jsOrStr none "zzz"
    ∧ (∀ (parseDate : String → ℚ) (txs : List Transaction),
        (tlSorted parseDate TLColumn.event_type SortDirection.asc txs).Pairwise
          (fun a b => ¬(a.event_type = some ""
            ∧ (b.event_type = some "buy" ∨ b.event_type = some "sell"))))
    ∧ (∀ (parseDate : String → ℚ) (txs : List ProductTransaction),
        (psSorted parseDate PSColumn.event_type SortDirection.asc txs).Pairwise
          (fun a b => ¬(a.event_type = some ""
            ∧ (b.event_type = some "buy" ∨ b.event_type = some "sell")))) := by
  refine ⟨rfl, ?_, ?_⟩
  · intro pd txs
    have h := sortByKey_sorted
      (fun t : Transaction => (jsOrStr t.event_type "zzz").toList)
      SortDirection.asc txs
    refine List.Pairwise.imp ?_ h
    intro a b hab
    rw [jsCompare_asc_nonpos] at hab
    rintro ⟨ha, hb⟩
    rw [ha] at hab
    rcases hb with hb | hb <;> rw [hb] at hab <;> exact absurd hab (by decide)
  · intro pd txs
    have h := sortByKey_sorted
      (fun t : ProductTransaction => (jsOrStr t.event_type "zzz").toList)
      SortDirection.asc txs
    refine List.Pairwise.imp ?_ h
    intro a b hab
    rw [jsCompare_asc_nonpos] at hab
    rintro ⟨ha, hb⟩
    rw [ha] at hab
    rcases hb with hb | hb <;> rw [hb] at hab <;> exact absurd hab (by decide)

theorem spreadSort_frame {α : Type} (f : List α → List α) (h : ArrayHeap α)
    (r : Nat) (hr : r < h.arrays.length) :
    (spreadSort f h r).1.get r = h.get r := by
  unfold spreadSort ArrayHeap.get
  rw [List.getD_eq_getElem?_getD, List.getD_eq_getElem?_getD]
  rw [List.getElem?_set_ne (by omega)]
  rw [List.getElem?_append_left hr]

theorem spreadSort_result {α : Type} (f : List α → List α) (h : ArrayHeap α)
    (r : Nat) :
    (spreadSort f h r).1.get (spreadSort f h r).2 = f (h.get r) := by
  unfold spreadSort ArrayHeap.get
  have hcopy : (h.arrays ++ [h.arrays.getD r []])[h.arrays.length]?
      = some (h.arrays.getD r []) := List.getElem?_concat_length _ _
  have hlen : h.arrays.length < (h.arrays ++ [h.arrays.getD r []]).length := by
    simp
  rw [List.getD_eq_getElem?_getD, List.getElem?_set_self hlen, Option.getD_some,
    List.getD_eq_getElem?_getD, hcopy, Option.getD_some]

/-- C9: producing a sorted view never modifies the input array: after
running `[...transactions].sort(...)` (any column, any direction, in any
of the three components) the original reference still holds the original
sequence, and the returned fresh array holds the sorted sequence. -/
theorem C9_sort_preserves_input :
    (∀ (parseDate : String → ℚ) (col : TLColumn) (dir : SortDirection)
        (h : ArrayHeap Transaction) (r : Nat), r < h.arrays.length →
        (spreadSort (tlSorted parseDate col dir) h r).1.get r = h.get r
          ∧ (spreadSort (tlSorted parseDate col dir) h r).1.get
              (spreadSort (tlSorted parseDate col dir) h r).2
            = tlSorted parseDate col dir (h.get r))
    ∧ (∀ (parseDate : String → ℚ) (col : PSColumn) (dir : SortDirection)
        (h : ArrayHeap ProductTransaction) (r : Nat), r < h.arrays.length →
        (spreadSort (psSorted parseDate col dir) h r).1.get r = h.get r
          ∧ (spreadSort (psSorted parseDate col dir) h r).1.get
              (spreadSort (psSorted parseDate col dir) h r).2
            = psSorted parseDate col dir (h.get r))
    ∧ (∀ (col : StatsColumn) (dir : SortDirection)
        (h : ArrayHeap ProductStats) (r : Nat), r < h.arrays.length →
        (spreadSort (sortedProducts col dir) h r).1.get r = h.get r
          ∧ (spreadSort (sortedProducts col dir) h r).1.get
              (spreadSort (sortedProducts col dir) h r).2
            = sortedProducts col dir (h.get r)) :=
  ⟨fun _ _ _ h r hr => ⟨spreadSort_frame _ h r hr, spreadSort_result _ h r⟩,
    fun _ _ _ h r hr => ⟨spreadSort_frame _ h r hr, spreadSort_result _ h r⟩,
    fun _ _ h r hr => ⟨spreadSort_frame _ h r hr, spreadSort_result _ h r⟩⟩

/-- C9 witness: a concrete one-array heap. -/
theorem C9_sort_preserves_input_witness :
    0 < (⟨[[frameTx]]⟩ : ArrayHeap Transaction).arrays.length
      ∧ (spreadSort (tlSorted (fun _ => 0) TLColumn.price SortDirection.asc)
            ⟨[[frameTx]]⟩ 0).1.get 0
        = (⟨[[frameTx]]⟩ : ArrayHeap Transaction).get 0 :=
  ⟨by decide,
    (C9_sort_preserves_input.1 (fun _ => 0) TLColumn.price SortDirection.asc
      ⟨[[frameTx]]⟩ 0 (by decide)).1⟩

theorem hasDate_iff (m : List (String × DayAcc)) (d : String) :
    hasDate m d = true ↔ d ∈ m.map Prod.fst := by
  unfold hasDate
  simp

theorem addBuy_keys (m : List (String × DayAcc)) (d : String) (q : ℚ) :
    (addBuy m d q).map Prod.fst = m.map Prod.fst := by
  unfold addBuy
  rw [List.map_map]
  apply List.map_congr_left
  intro p _
  by_cases h : p.1 = d <;> simp [h]

theorem addSell_keys (m : List (String × DayAcc)) (d : String) (q : ℚ) :
    (addSell m d q).map Prod.fst = m.map Prod.fst := by
  unfold addSell
  rw [List.map_map]
  apply List.map_congr_left
  intro p _
  by_cases h : p.1 = d <;> simp [h]

theorem buySum_append (txs : List ProductTransaction) (tx : ProductTransaction)
    (d : String) :
    buySum (txs ++ [tx]) d
      = buySum txs d
        + (if dateOf tx = d ∧ chartClassify tx = Classification.buy then
            amountOf tx else 0) := by
  unfold buySum
  rw [List.filter_append, List.map_append, List.sum_append]
  congr 1
  by_cases hc : dateOf tx = d ∧ chartClassify tx = Classification.buy
  · simp [hc]
  · simp [hc]

theorem sellSum_append (txs : List ProductTransaction) (tx : ProductTransaction)
    (d : String) :
    sellSum (txs ++ [tx]) d
      = sellSum txs d
        + (if dateOf tx = d ∧ chartClassify tx = Classification.sell then
            amountOf tx else 0) := by
  unfold sellSum
  rw [List.filter_append, List.map_append, List.sum_append]
  congr 1
  by_cases hc : dateOf tx = d ∧ chartClassify tx = Classification.sell
  · simp [hc]
  · simp [hc]

theorem buySum_eq_zero (txs : List ProductTransaction) (d : String)
    (h : d ∉ txs.map dateOf) : buySum txs d = 0 := by
  unfold buySum
  have hf : txs.filter
      (fun tx => decide (dateOf tx = d ∧ chartClassify tx = Classification.buy)) = [] := by
    rw [List.filter_eq_nil_iff]
    intro tx htx
    simp only [decide_eq_true_eq, not_and]
    intro hd
    exact absurd (List.mem_map.mpr ⟨tx, htx, hd⟩) h
  rw [hf]
  rfl

theorem sellSum_eq_zero (txs : List ProductTransaction) (d : String)
    (h : d ∉ txs.map dateOf) : sellSum txs d = 0 := by
  unfold sellSum
  have hf : txs.filter
      (fun tx => decide (dateOf tx = d ∧ chartClassify tx = Classification.sell)) = [] := by
    rw [List.filter_eq_nil_iff]
    intro tx htx
    simp only [decide_eq_true_eq, not_and]
    intro hd
    exact absurd (List.mem_map.mpr ⟨tx, htx, hd⟩) h
  rw [hf]
  rfl

theorem chartStep_eq (m : List (String × DayAcc)) (tx : ProductTransaction) :
    chartStep m tx
      = match chartClassify tx with
        | .buy => addBuy (ensureDate m (dateOf tx)) (dateOf tx) (amountOf tx)
        | .sell => addSell (ensureDate m (dateOf tx)) (dateOf tx) (amountOf tx)
        | .unknown => ensureDate m (dateOf tx) := rfl

theorem chartState_spec (txs : List ProductTransaction) :
    ((txs.foldl chartStep []).map Prod.fst).Nodup
    ∧ (∀ d, d ∈ (txs.foldl chartStep []).map Prod.fst ↔ d ∈ txs.map dateOf)
    ∧ ∀ p ∈ txs.foldl chartStep [],
        p.2.buyAmount = buySum txs p.1 ∧ p.2.sellAmount = sellSum txs p.1 := by
  induction txs using List.reverseRecOn with
  | nil => exact ⟨by simp, by simp, by simp⟩
  | append_singleton txs tx ih =>
    obtain ⟨ihN, ihK, ihV⟩ := ih
    have hfold : (txs ++ [tx]).foldl chartStep []
        = chartStep (txs.foldl chartStep []) tx := by
      rw [List.foldl_append]
      rfl
    have hm1K : (ensureDate (txs.foldl chartStep []) (dateOf tx)).map Prod.fst
        = if hasDate (txs.foldl chartStep []) (dateOf tx) then
            (txs.foldl chartStep []).map Prod.fst
          else (txs.foldl chartStep []).map Prod.fst ++ [dateOf tx] := by
      unfold ensureDate
      split <;> simp
    have hm1N : ((ensureDate (txs.foldl chartStep []) (dateOf tx)).map
        Prod.fst).Nodup := by
      rw [hm1K]
      split
      · exact ihN
      · next hnot =>
        have hdm : dateOf tx ∉ (txs.foldl chartStep []).map Prod.fst := by
          intro hmem
          exact hnot ((hasDate_iff _ _).mpr hmem)
        simp [List.nodup_append, ihN, hdm]
    have hm1mem : ∀ e, e ∈ (ensureDate (txs.foldl chartStep [])
          (dateOf tx)).map Prod.fst
        ↔ e ∈ (txs.foldl chartStep []).map Prod.fst ∨ e = dateOf tx := by
      intro e
      rw [hm1K]
      split
      · next hhas =>
        have hdm : dateOf tx ∈ (txs.foldl chartStep []).map Prod.fst :=
          (hasDate_iff _ _).mp hhas
        constructor
        · exact fun h => Or.inl h
        · rintro (h | rfl)
          · exact h
          · exact hdm
      · simp
    have hm1entry : ∀ p, p ∈ ensureDate (txs.foldl chartStep []) (dateOf tx) →
        p ∈ txs.foldl chartStep []
          ∨ (dateOf tx ∉ (txs.foldl chartStep []).map Prod.fst
              ∧ p = (dateOf tx, ⟨0, 0⟩)) := by
      intro p hp
      unfold ensureDate at hp
      by_cases hhas : hasDate (txs.foldl chartStep []) (dateOf tx) = true
      · rw [if_pos hhas] at hp
        exact Or.inl hp
      · rw [if_neg hhas] at hp
        rcases List.mem_append.mp hp with h | h
        · exact Or.inl h
        · right
          refine ⟨?_, by simpa using h⟩
          intro hmem
          exact hhas ((hasDate_iff _ _).mpr hmem)
    have hm1V : ∀ p ∈ ensureDate (txs.foldl chartStep []) (dateOf tx),
        p.2.buyAmount = buySum txs p.1 ∧ p.2.sellAmount = sellSum txs p.1 := by
      intro p hp
      rcases hm1entry p hp with h | ⟨hdm, rfl⟩
      · exact ihV p h
      · have hdd : dateOf tx ∉ txs.map dateOf := fun hc => hdm ((ihK _).mpr hc)
        exact ⟨by rw [buySum_eq_zero txs _ hdd], by rw [sellSum_eq_zero txs _ hdd]⟩
    have hKgoal : ∀ e, (e ∈ (txs.foldl chartStep []).map Prod.fst
          ∨ e = dateOf tx) ↔ e ∈ (txs ++ [tx]).map dateOf := by
      intro e
      rw [List.map_append]
      simp [ihK e]
    rw [hfold, chartStep_eq]
    cases hcl : chartClassify tx with
    | unknown =>
      refine ⟨hm1N, ?_, ?_⟩
      · intro e
        rw [hm1mem e]
        exact hKgoal e
      · intro p hp
        have h1 := hm1V p hp
        have hnb : ¬(dateOf tx = p.1 ∧ chartClassify tx = Classification.buy) := by
          rintro ⟨_, hc2⟩
          rw [hcl] at hc2
          exact absurd hc2 (by decide)
        have hns : ¬(dateOf tx = p.1 ∧ chartClassify tx = Classification.sell) := by
          rintro ⟨_, hc2⟩
          rw [hcl] at hc2
          exact absurd hc2 (by decide)
        exact ⟨by rw [buySum_append, if_neg hnb, add_zero, h1.1],
          by rw [sellSum_append, if_neg hns, add_zero, h1.2]⟩
    | buy =>
      refine ⟨?_, ?_, ?_⟩
      · rw [addBuy_keys]
        exact hm1N
      · intro e
        rw [addBuy_keys, hm1mem e]
        exact hKgoal e
      · intro p hp
        unfold addBuy at hp
        rcases List.mem_map.mp hp with ⟨p₀, hp₀, rfl⟩
        have h0 := hm1V p₀ hp₀
        by_cases hpd : p₀.1 = dateOf tx
        · rw [if_pos hpd]
          constructor
          · show p₀.2.buyAmount + amountOf tx = buySum (txs ++ [tx]) p₀.1
            have hcond : dateOf tx = p₀.1 ∧ chartClassify tx = Classification.buy :=
              ⟨hpd.symm, hcl⟩
            rw [buySum_append, if_pos hcond, h0.1]
          · show p₀.2.sellAmount = sellSum (txs ++ [tx]) p₀.1
            have hns : ¬(dateOf tx = p₀.1 ∧ chartClassify tx = Classification.sell) := by
              rintro ⟨_, hc2⟩
              rw [hcl] at hc2
              exact absurd hc2 (by decide)
            rw [sellSum_append, if_neg hns, add_zero, h0.2]
        · rw [if_neg hpd]
          have hnb : ¬(dateOf tx = p₀.1 ∧ chartClassify tx = Classification.buy) := by
            rintro ⟨hc1, _⟩
            exact hpd hc1.symm
          have hns : ¬(dateOf tx = p₀.1 ∧ chartClassify tx = Classification.sell) := by
            rintro ⟨hc1, _⟩
            exact hpd hc1.symm
          exact ⟨by rw [buySum_append, if_neg hnb, add_zero, h0.1],
            by rw [sellSum_append, if_neg hns, add_zero, h0.2]⟩
    | sell =>
      refine ⟨?_, ?_, ?_⟩
      · rw [addSell_keys]
        exact hm1N
      · intro e
        rw [addSell_keys, hm1mem e]
        exact hKgoal e
      · intro p hp
        unfold addSell at hp
        rcases List.mem_map.mp hp with ⟨p₀, hp₀, rfl⟩
        have h0 := hm1V p₀ hp₀
        by_cases hpd : p₀.1 = dateOf tx
        · rw [if_pos hpd]
          constructor
          · show p₀.2.buyAmount = buySum (txs ++ [tx]) p₀.1
            have hnb : ¬(dateOf tx = p₀.1 ∧ chartClassify tx = Classification.buy) := by
              rintro ⟨_, hc2⟩
              rw [hcl] at hc2
              exact absurd hc2 (by decide)
            rw [buySum_append, if_neg hnb, add_zero, h0.1]
          · show p₀.2.sellAmount + amountOf tx = sellSum (txs ++ [tx]) p₀.1
            have hcond : dateOf tx = p₀.1 ∧ chartClassify tx = Classification.sell :=
              ⟨hpd.symm, hcl⟩
            rw [sellSum_append, if_pos hcond, h0.2]
        · rw [if_neg hpd]
          have hnb : ¬(dateOf tx = p₀.1 ∧ chartClassify tx = Classification.buy) := by
            rintro ⟨hc1, _⟩
            exact hpd hc1.symm
          have hns : ¬(dateOf tx = p₀.1 ∧ chartClassify tx = Classification.sell) := by
            rintro ⟨hc1, _⟩
            exact hpd hc1.symm
          exact ⟨by rw [buySum_append, if_neg hnb, add_zero, h0.1],
            by rw [sellSum_append, if_neg hns, add_zero, h0.2]⟩

theorem dailyData_perm (txs : List ProductTransaction) :
    List.Perm (dailyData txs)
      ((txs.foldl chartStep []).map
        (fun p => (⟨p.1, round2 p.2.buyAmount, round2 p.2.sellAmount⟩ : DailyData))) :=
  List.perm_insertionSort _ _

theorem dailyData_dates_nodup (txs : List ProductTransaction) :
    ((dailyData txs).map (fun b => b.date)).Nodup := by
  have hperm := (dailyData_perm txs).map (fun b => b.date)
  rw [List.Perm.nodup_iff hperm]
  rw [List.map_map]
  have : ((fun b => DailyData.date b) ∘
      (fun p : String × DayAcc => (⟨p.1, round2 p.2.buyAmount, round2 p.2.sellAmount⟩ : DailyData)))
      = Prod.fst := rfl
  rw [this]
  exact (chartState_spec txs).1

theorem dailyData_dates_mem (txs : List ProductTransaction) (d : String) :
    d ∈ (dailyData txs).map (fun b => b.date) ↔ d ∈ txs.map dateOf := by
  have hperm := (dailyData_perm txs).map (fun b => b.date)
  rw [hperm.mem_iff]
  rw [List.map_map]
  have : ((fun b => DailyData.date b) ∘
      (fun p : String × DayAcc => (⟨p.1, round2 p.2.buyAmount, round2 p.2.sellAmount⟩ : DailyData)))
      = Prod.fst := rfl
  rw [this]
  exact (chartState_spec txs).2.1 d

theorem dailyData_amounts (txs : List ProductTransaction) :
    ∀ b ∈ dailyData txs,
      b.buyAmount = round2 (buySum txs b.date)
        ∧ b.sellAmount = round2 (sellSum txs b.date) := by
  intro b hb
  have hb2 := (dailyData_perm txs).subset hb
  rcases List.mem_map.mp hb2 with ⟨p, hp, rfl⟩
  have hv := (chartState_spec txs).2.2 p hp
  exact ⟨by rw [hv.1], by rw [hv.2]⟩

theorem dailyData_sorted (txs : List ProductTransaction) :
    (dailyData txs).Pairwise (fun a b => a.date ≤ b.date) := by
  haveI : IsTotal DailyData (fun a b => a.date ≤ b.date) :=
    ⟨fun a b => le_total a.date b.date⟩
  haveI : IsTrans DailyData (fun a b => a.date ≤ b.date) :=
    ⟨fun a b c hab hbc => le_trans hab hbc⟩
  exact List.sorted_insertionSort _ _

/-- C5: daily bucketing produces exactly one bucket per distinct calendar
date (the `YYYY-MM-DD` prefix of `event_time`), each bucket's buy/sell
amount is the rounding — applied once, after summation — of the sum of
`price * quantity / 100` over the same-date transactions of that
classification, and the buckets are sorted by date ascending; in
particular two $10.005 buy transactions of one date yield a single
bucket of $20.01 (not $20.00). -/
theorem C5_daily_bucketing :
    (∀ txs : List ProductTransaction,
        ((dailyData txs).map (fun b => b.date)).Nodup
          ∧ (∀ d, d ∈ (dailyData txs).map (fun b => b.date)
              ↔ d ∈ txs.map dateOf)
          ∧ (∀ b ∈ dailyData txs,
              b.buyAmount = round2 (buySum txs b.date)
                ∧ b.sellAmount = round2 (sellSum txs b.date))
          ∧ (dailyData txs).Pairwise (fun a b => a.date ≤ b.date))
    ∧ dailyData [roundTx1, roundTx2] = [⟨"2024-01-01", 2001/100, 0⟩]
    ∧ (2001 : ℚ)/100 ≠ 20 := by
  refine ⟨?_, ?_, by norm_num⟩
  · intro txs
    exact ⟨dailyData_dates_nodup txs, dailyData_dates_mem txs,
      dailyData_amounts txs, dailyData_sorted txs⟩
  · have hd1 : dateOf roundTx1 = "2024-01-01" := by decide
    have hd2 : dateOf roundTx2 = "2024-01-01" := by decide
    have hc1 : chartClassify roundTx1 = Classification.buy := by decide
    have hc2 : chartClassify roundTx2 = Classification.buy := by decide
    have ha1 : amountOf roundTx1 = 2001/200 := by norm_num [amountOf, roundTx1]
    have ha2 : amountOf roundTx2 = 2001/200 := by norm_num [amountOf, roundTx2]
    norm_num [dailyData, chartStep, ensureDate, hasDate, addBuy, addSell,
      hd1, hd2, hc1, hc2, ha1, ha2, round2, round_eq]

/-- C5 witness: the $20.01 bucket of the two $10.005 transactions indeed
carries the once-rounded sum. -/
theorem C5_daily_bucketing_witness :
    (⟨"2024-01-01", 2001/100, 0⟩ : DailyData).buyAmount
      = round2 (buySum [roundTx1, roundTx2] "2024-01-01") :=
  ((C5_daily_bucketing.1 [roundTx1, roundTx2]).2.2.1 _
    (by rw [C5_daily_bucketing.2.1]; exact List.mem_singleton_self _)).1

/-- C3 counterexample: a single transaction classified unknown (null
event type, non-priority variant) does create a `(0, 0)` bucket for its
date — `dailyData` of just that transaction is `[⟨"2024-01-02", 0, 0⟩]`,
not `[]` as the claim states. -/
theorem C3_unknown_creates_bucket :
    chartClassify unknownTx = Classification.unknown
      ∧ dailyData [unknownTx] = [⟨"2024-01-02", 0, 0⟩]
      ∧ dailyData [unknownTx] ≠ [] := by
  have hd : dateOf unknownTx = "2024-01-02" := by decide
  have hc : chartClassify unknownTx = Classification.unknown := by decide
  have heq : dailyData [unknownTx] = [⟨"2024-01-02", 0, 0⟩] := by
    norm_num [dailyData, chartStep, ensureDate, hasDate, addBuy, addSell, hd,
      hc, round2, round_eq]
  exact ⟨hc, heq, by rw [heq]; exact List.cons_ne_nil _ _⟩

/-- C3 (amended): unknown-classified transactions contribute to neither
accumulator, but every transaction ensures its date's bucket exists: a
calendar date all of whose transactions are unknown-classified appears
in the output as a bucket with `buyAmount = 0` and `sellAmount = 0`. -/
theorem C3_unknown_zero_bucket :
    ∀ (txs : List ProductTransaction) (d : String),
      d ∈ txs.map dateOf →
      (∀ tx ∈ txs, dateOf tx = d → chartClassify tx = Classification.unknown) →
      (⟨d, 0, 0⟩ : DailyData) ∈ dailyData txs := by
  intro txs d hmem hall
  have hbs : buySum txs d = 0 := by
    unfold buySum
    have hf : txs.filter
        (fun tx => decide (dateOf tx = d ∧ chartClassify tx = Classification.buy)) = [] := by
      rw [List.filter_eq_nil_iff]
      intro tx htx
      simp only [decide_eq_true_eq, not_and]
      intro hdd
      rw [hall tx htx hdd]
      decide
    rw [hf]
    rfl
  have hss : sellSum txs d = 0 := by
    unfold sellSum
    have hf : txs.filter
        (fun tx => decide (dateOf tx = d ∧ chartClassify tx = Classification.sell)) = [] := by
      rw [List.filter_eq_nil_iff]
      intro tx htx
      simp only [decide_eq_true_eq, not_and]
      intro hdd
      rw [hall tx htx hdd]
      decide
    rw [hf]
    rfl
  have hr0 : round2 0 = 0 := by norm_num [round2]
  have hbmem : d ∈ (dailyData txs).map (fun b => b.date) :=
    (dailyData_dates_mem txs d).mpr hmem
  rcases List.mem_map.mp hbmem with ⟨b, hb, hbd⟩
  have hv := dailyData_amounts txs b hb
  have hbeq : b = ⟨d, 0, 0⟩ := by
    rcases b with ⟨bd, bb, bs⟩
    simp only at hbd
    subst hbd
    simp only [hbs, hss, hr0] at hv
    simp [hv.1, hv.2]
  rw [← hbeq]
  exact hb

/-- C3 witness: the unknown transaction's date appears as a zero
bucket. -/
theorem C3_unknown_zero_bucket_witness :
    (⟨"2024-01-02", 0, 0⟩ : DailyData) ∈ dailyData [unknownTx] :=
  C3_unknown_zero_bucket [unknownTx] "2024-01-02" (by decide) (by decide)

end PureAnalytics
